import Mathlib

/-
Shallow embedding of the task-orchestration core of yt-dlp-host.

Embedded sources:
- src/src/json_utils.py   (load_tasks and save_tasks, GCS and local branches)
- src/src/yt_handler.py   (handle_task_error, check_and_get_size,
  send_webhook_notification, process_tasks, cleanup_processing_tasks,
  cleanup_task, and the terminal write of the get handler)
- src/src/server.py       (task creation of the download and get_info
  endpoints, and the path check of the files endpoint)
- config.py               (TASK_CLEANUP_TIME)

The Python task registry is one JSON document: a dict from task id to a
dict of fields.  It is modelled as an association list whose keys are
unique by construction.  A dict update in place while iterating over
list(tasks.items()) is a pointwise map, and del is a filter by key,
because dict keys are unique.  Wall-clock instants are Nat minutes and
datetime.now() becomes an explicit now parameter.
-/

namespace YtDlpHost

/-- Task record: the union of the fields the embedded code reads or writes. -/
structure Task where
  status : String := "waiting"
  task_type : String := ""
  key_name : Option String := none
  url : Option String := none
  format : Option String := none
  quality : Option String := none
  video_format : Option String := none
  audio_format : Option String := none
  started_time : Option Nat := none
  completed_time : Option Nat := none
  error : Option String := none
  file : Option String := none
  webhook_url : Option String := none
  webhook_status : Option String := none
  webhook_error : Option String := none
deriving DecidableEq, Repr

/-- The tasks.json document: a dict from task id to task record. -/
abbrev Store := List (String × Task)

/-- Dict lookup tasks.get(task_id) / tasks[task_id]. -/
def getTask (store : Store) (id : String) : Option Task :=
  (store.find? (fun p => p.1 == id)).map (fun p => p.2)

/-- Python tasks[task_id].update(...): replace the value at an existing key. -/
def updTask (id : String) (t : Task) (store : Store) : Store :=
  store.map (fun p => if p.1 == id then (p.1, t) else p)

/-- Python tasks[task_id] = value: overwrite an existing key or append a new one. -/
def putTask (id : String) (t : Task) (store : Store) : Store :=
  if (getTask store id).isSome then updTask id t store else store ++ [(id, t)]

/-- Python del tasks[task_id]. -/
def delTask (id : String) (store : Store) : Store :=
  store.filter (fun p => !(p.1 == id))

/-- Keys of the association list are distinct, as dict keys are. -/
abbrev NoDupKeys (store : Store) : Prop :=
  (store.map (fun p => p.1)).Nodup

/-- config.py: TASK_CLEANUP_TIME = 10 minutes. -/
def TASK_CLEANUP_TIME : Nat := 10

/-- handle_task_error (yt_handler.py 47-60): reload, and when the id is
still present write status failed with the error text and a completion
time; an absent id leaves the store untouched. -/
def handle_task_error (task_id err : String) (now : Nat) (store : Store) : Store :=
  match getTask store task_id with
  | some t => updTask task_id
      { t with status := "failed", error := some err, completed_time := some now } store
  | none => store

/-- Probe outcome inside check_and_get_size: either requested_formats
(merged video and audio) or a single format; each format carries
filesize and filesize_approx, 0 standing for a missing key. -/
inductive ProbeInfo where
  | merged (formats : List (Nat × Nat))
  | single (filesize : Nat) (filesize_approx : Nat)
deriving DecidableEq, Repr

/-- Python f.get(a, 0) or f.get(b, 0): the second value when the first is falsy. -/
def orSize (filesize approx : Nat) : Nat :=
  if filesize ≠ 0 then filesize else approx

/-- Total size reported by the probe, 0 when the probe raised. -/
def probeTotal : Option ProbeInfo → Nat
  | none => 0
  | some (.merged fs) => fs.foldl (fun a p => a + orSize p.1 p.2) 0
  | some (.single fs ap) => orSize fs ap

/-- check_and_get_size (yt_handler.py 62-86): int(total_size * 1.1),
written total * 11 / 10 over Nat; any exception in the probe returns 0.
The probe outcome is the parameter, none being the exception path. -/
def check_and_get_size (r : Option ProbeInfo) : Nat :=
  match r with
  | none => 0
  | some info => probeTotal (some info) * 11 / 10

/-- Outcome of the tasks.json read attempted by load_tasks in GCS mode. -/
inductive ReadResult where
  | missing
  | corrupt (raw : String)
  | ioErr (msg : String)
  | ok (tasks : Store)

/-- load_tasks (json_utils.py 8-19), GCS branch: a missing blob gives the
empty dict, and any exception (download failure or corrupt JSON) is
caught, printed and also returned as the empty dict. -/
def load_tasks_gcs : ReadResult → Store
  | .missing => []
  | .corrupt _ => []
  | .ioErr _ => []
  | .ok ts => ts

/-- load_tasks (json_utils.py 20-24), local branch: an absent file gives
the empty dict; a corrupt file makes json.load raise out of the function,
modelled as Except.error. The parameter is none when the file is absent,
otherwise the parse outcome. -/
def load_tasks_local : Option (Except String Store) → Except String Store
  | none => .ok []
  | some r => r

/-- save_tasks (json_utils.py 26-36), GCS branch: the backend outcome is
the parameter; the first component records whether the bytes were
persisted and the second what the caller observes, which is always a
normal return because the exception is caught and printed. -/
def save_tasks_gcs (backendOk : Bool) : Bool × Except String Unit :=
  (backendOk, .ok ())

/-- send_webhook_notification (yt_handler.py 123-170): when the task is
present and has a webhook_url, notify_webhook is attempted; delivered is
its Boolean result.  On success nothing is written back; on failure
webhook_status failed and a fixed webhook_error message are recorded. -/
def send_webhook_notification (delivered : Bool) (task_id : String) (store : Store) : Store :=
  match getTask store task_id with
  | none => store
  | some t =>
    match t.webhook_url with
    | none => store
    | some _ =>
      if delivered then store
      else updTask task_id
        { t with webhook_status := some "failed",
                 webhook_error := some "Failed to send webhook notification" } store

/-- Terminal write of the get handler (yt_handler.py 350-358): a fresh
load, tasks[task_id].update with completed fields, then a whole-document
save.  When the id is absent from the freshly loaded dict,
tasks[task_id] raises KeyError before any save and the surrounding
except calls handle_task_error, which re-checks membership. -/
def get_terminal_write (task_id stored_path : String) (now : Nat) (store : Store) : Store :=
  match getTask store task_id with
  | some t => updTask task_id
      { t with status := "completed", completed_time := some now,
               file := some stored_path } store
  | none => handle_task_error task_id "KeyError" now store

/-- One executor.submit call recorded by its task id and handler name. -/
structure Submission where
  id : String
  handler : String
deriving DecidableEq, Repr

/-- The five task_type values process_tasks dispatches on. -/
def dispatched_types : List String :=
  ["get_video", "get_audio", "get_info", "get_live_video", "get_live_audio"]

/-- The executor.submit branching of process_tasks (yt_handler.py
204-245); a task_type outside the five branches falls through with no
submission. -/
def dispatch (id : String) (t : Task) : List Submission :=
  if t.task_type = "get_video" then [⟨id, "get"⟩]
  else if t.task_type = "get_audio" then [⟨id, "get"⟩]
  else if t.task_type = "get_info" then [⟨id, "get_info"⟩]
  else if t.task_type = "get_live_video" then [⟨id, "get_live"⟩]
  else if t.task_type = "get_live_audio" then [⟨id, "get_live"⟩]
  else []

/-- The per-entry status update of the waiting sweep. -/
def markProcessing (now : Nat) (p : String × Task) : String × Task :=
  if p.2.status = "waiting" then
    (p.1, { p.2 with status := "processing", started_time := some now })
  else p

/-- Waiting sweep of process_tasks (yt_handler.py 193-245): every task
found waiting is set processing with started_time, unconditionally, and
submitted according to its task_type; the dict update in place over the
snapshot is a pointwise map over the entries. -/
def process_waiting (now : Nat) (store : Store) : Store × List Submission :=
  (store.map (markProcessing now),
   store.flatMap (fun p => if p.2.status = "waiting" then dispatch p.1 p.2 else []))

/-- Staleness test of cleanup_processing_tasks: started_time older than
TASK_CLEANUP_TIME minutes, a missing started_time defaulting to the very
old 2000-01-01 instant, here 0. -/
def staleAt (now : Nat) (t : Task) : Bool :=
  decide (t.started_time.getD 0 + TASK_CLEANUP_TIME < now)

/-- Reap condition of cleanup_processing_tasks. -/
def reapTask (now : Nat) (t : Task) : Bool :=
  t.status == "processing" && staleAt now t

/-- cleanup_processing_tasks (yt_handler.py 172-186) together with
cleanup_task (429-442): every stale processing task has its artifacts
deleted and its record removed with del tasks[task_id]; over unique keys
the fold of cleanup_task over the snapshot is this filter.  The second
component lists the ids whose artifact directories are deleted. -/
def cleanup_processing_tasks (now : Nat) (store : Store) : Store × List String :=
  (store.filter (fun p => !(reapTask now p.2)),
   (store.filter (fun p => reapTask now p.2)).map (fun p => p.1))

/-- One iteration of the process_tasks loop: the waiting sweep followed
by cleanup_processing_tasks. -/
def scheduler_pass (now : Nat) (store : Store) : Store × List Submission :=
  ((cleanup_processing_tasks now (process_waiting now store).1).1,
   (process_waiting now store).2)

/-- Task creation of the download endpoint (server.py 29-39). -/
def create_download_task (task_id key url fmt qual : String) (store : Store) : Store :=
  putTask task_id
    { status := "waiting", task_type := "download", key_name := some key,
      url := some url, format := some fmt, quality := some qual } store

/-- Task creation of the get_info endpoint (server.py 52-60). -/
def create_get_info_task (task_id key url : String) (store : Store) : Store :=
  putTask task_id
    { status := "waiting", task_type := "get_info", key_name := some key,
      url := some url } store

/-- The store-mutating operations of the embedded system: endpoint task
creation, one scheduler iteration, the terminal writes of the worker
handlers, and the webhook annotation. -/
inductive SysOp where
  | createDownload (id key url fmt qual : String)
  | createInfo (id key url : String)
  | scheduler (now : Nat)
  | handlerComplete (id path : String) (now : Nat) (delivered : Bool)
  | handlerError (id err : String) (now : Nat)
  | webhook (delivered : Bool) (id : String)

/-- Store effect of each embedded operation.  handlerComplete is the
success tail of the get handler: the terminal write followed by
send_webhook_notification, as in yt_handler.py 350-364. -/
def applyOp : SysOp → Store → Store
  | .createDownload id key url fmt qual, s => create_download_task id key url fmt qual s
  | .createInfo id key url, s => create_get_info_task id key url s
  | .scheduler now, s => (scheduler_pass now s).1
  | .handlerComplete id path now d, s =>
      send_webhook_notification d id (get_terminal_write id path now s)
  | .handlerError id err now, s => handle_task_error id err now s
  | .webhook d id, s => send_webhook_notification d id s

/-- The status strings the embedded code ever writes. -/
def allowedStatuses : List String := ["waiting", "processing", "completed", "failed"]

/-- Every task in the store carries one of the written status values. -/
abbrev statusInv (store : Store) : Prop :=
  ∀ p ∈ store, p.2.status ∈ allowedStatuses

/-- Example task for the status vocabulary claim. -/
def c4Task : Task :=
  { status := "processing", task_type := "get_video", started_time := some 3 }

def c4Store : Store := [("a1", c4Task)]

def c5Store : Store := [("other", c4Task)]

def c6Task : Task :=
  { status := "completed", task_type := "get_info",
    webhook_url := some "http://cb.example/hook" }

def c6Store : Store := [("w1", c6Task)]

/-- Example stale processing task for the reaper claims. -/
def c3Task : Task :=
  { status := "processing", task_type := "get_video", started_time := some 0 }

def c3Store : Store := [("t1", c3Task)]

/-- Modelled from the spec: try_reserve of the Admission Controller
(check_memory_limit lives in src/auth.py, a file absent from src):
approval iff the consumed bytes of the window plus the estimate stay
within the ceiling, the spec words of section 4.2. -/
def try_reserve_spec (consumed ceiling estimate : Nat) : Bool :=
  decide (consumed + estimate ≤ ceiling)

/-- Modelled from the spec: step 2 of the Scheduler Loop of section 4.4:
for each waiting task estimate the resource need, call the Admission
Controller; on approval transition to processing with started_time and
submit, on denial transition to error with a quota-exceeded detail. -/
def process_waiting_spec (now : Nat) (estimate : Task → Nat)
    (reserve : Task → Nat → Bool) (store : Store) : Store × List Submission :=
  (store.map (fun p =>
    if p.2.status = "waiting" then
      if reserve p.2 (estimate p.2) then
        (p.1, { p.2 with status := "processing", started_time := some now })
      else
        (p.1, { p.2 with status := "error", error := some "Memory quota exceeded" })
    else p),
   store.flatMap (fun p =>
    if p.2.status = "waiting" ∧ reserve p.2 (estimate p.2) = true then
      dispatch p.1 p.2
    else []))

/-- Example waiting task for the admission claims. -/
def c2Task : Task :=
  { status := "waiting", task_type := "get_video", key_name := some "alice",
    url := some "http://v.example/w" }

def c2Store : Store := [("t1", c2Task)]

/-- The task record the download endpoint creates in the example. -/
def c9Task : Task :=
  { status := "waiting", task_type := "download", key_name := some "alice",
    url := some "http://v.example/w", format := some "mp4", quality := some "360p" }

def c9Store : Store :=
  create_download_task "d1" "alice" "http://v.example/w" "mp4" "360p" []

/-- One read-modify-write mutation of a single task id, as every writer
in the code performs it against the whole tasks.json document. -/
structure Mutation where
  id : String
  f : Task → Task

/-- Apply a mutation to a document: update the id when present (the
writers guard their updates with membership), leave it otherwise. -/
def applyMutation (m : Mutation) (store : Store) : Store :=
  match getTask store m.id with
  | some t => updTask m.id (m.f t) store
  | none => store

/-- Fully serialized execution: each mutation reloads the document the
previous one saved. -/
def runSequential (muts : List Mutation) (init : Store) : Store :=
  muts.foldl (fun s m => applyMutation m s) init

/-- Interleaving events: mutation i performs load_tasks (load i) and
later save_tasks of its modified snapshot (save i). -/
inductive MutEvent where
  | load (i : Nat)
  | save (i : Nat)

structure SchedState where
  global : Store
  locals : List (Option Store)

/-- load i captures the current document into the local snapshot of
mutation i; save i applies mutation i to that snapshot and writes the
whole snapshot back over the document, with no re-read and no
comparison: exactly the load_tasks, mutate, save_tasks pattern of
json_utils.py. -/
def stepEvent (muts : List Mutation) (st : SchedState) : MutEvent → SchedState
  | .load i => { st with locals := st.locals.set i (some st.global) }
  | .save i =>
    match muts[i]?, st.locals[i]? with
    | some m, some (some snap) => { st with global := applyMutation m snap }
    | _, _ => st

def runSchedule (muts : List Mutation) (init : Store) (events : List MutEvent) : SchedState :=
  events.foldl (stepEvent muts) { global := init, locals := List.replicate muts.length none }

def c1Task1 : Task :=
  { status := "processing", task_type := "get_video", started_time := some 1 }

def c1Task2 : Task :=
  { status := "processing", task_type := "get_audio", started_time := some 2 }

def c1Store : Store := [("t1", c1Task1), ("t2", c1Task2)]

def c1Mut1 : Mutation :=
  ⟨"t1", fun t => { t with status := "completed", file := some "/files/t1/video.mp4" }⟩

def c1Mut2 : Mutation :=
  ⟨"t2", fun t => { t with status := "failed", error := some "boom" }⟩

/-- Interleaving of one get handler with the reaper: hLoad is the
handler load_tasks before its terminal write, reap is one
cleanup_processing_tasks pass taken as atomic, hSave the terminal
update-and-save of the handler over its own snapshot; when the id is
missing from the snapshot the update raises KeyError, caught into
handle_task_error against the current document. -/
inductive LateEvent where
  | hLoad
  | reap (now : Nat)
  | hSave (path : String) (now : Nat)

structure LateState where
  global : Store
  snap : Option Store

def lateStep (id : String) (st : LateState) : LateEvent → LateState
  | .hLoad => { st with snap := some st.global }
  | .reap now => { st with global := (cleanup_processing_tasks now st.global).1 }
  | .hSave path now =>
    match st.snap with
    | some snap =>
      match getTask snap id with
      | some t =>
        { st with
          global := updTask id
            { t with status := "completed", completed_time := some now, file := some path }
            snap }
      | none => { st with global := handle_task_error id "KeyError" now st.global }
    | none => st

def runLate (id : String) (init : Store) (events : List LateEvent) : LateState :=
  events.foldl (lateStep id) { global := init, snap := none }

/-- abspath-style normalization of os.path: request components applied
over the base directory; a parent component drops the last directory
component, a dot or empty component vanishes. -/
def resolveComps (base : List String) : List String → List String
  | [] => base
  | c :: cs =>
    if c = ".." then resolveComps base.dropLast cs
    else if c = "." ∨ c = "" then resolveComps base cs
    else resolveComps (base ++ [c]) cs

/-- config.py default DOWNLOAD_DIR = /app/downloads, as components. -/
def DOWNLOAD_DIR_COMPS : List String := ["app", "downloads"]

/-- Rendering of an absolute path as the character string os.path
produces: a slash before every component. -/
def renderAbs (comps : List String) : List Char :=
  comps.foldl (fun acc c => acc ++ '/' :: c.data) []

/-- Splitting a character list on the slash, the str.split building
block of the path functions. -/
def splitSlashAux : List Char → List Char → List String
  | [], acc => [String.mk acc.reverse]
  | c :: cs, acc =>
    if c = '/' then String.mk acc.reverse :: splitSlashAux cs []
    else splitSlashAux cs (c :: acc)

def splitSlash (s : String) : List String :=
  splitSlashAux s.data []

/-- A path string is absolute when it starts with a slash. -/
def isAbsolutePath (s : String) : Bool :=
  match s.data with
  | [] => false
  | c :: _ => c = '/'

/-- os.path.abspath(os.path.join(dir, filename)) of server.py 74: a
filename that is already absolute replaces the base, otherwise its
components are resolved under the directory. -/
def resolveRequest (dir : List String) (filename : String) : List String :=
  if isAbsolutePath filename then resolveComps [] (splitSlash filename)
  else resolveComps dir (splitSlash filename)

/-- The get_file check (server.py 74-76): respond 403 exactly when the
resolved absolute path does not startswith the directory path as a raw
string. -/
def get_file_denied (dir : List String) (filename : String) : Bool :=
  ! List.isPrefixOf (renderAbs dir) (renderAbs (resolveRequest dir filename))

/-- Lying outside the directory in the tree sense: the directory
components are not a component prefix of the resolved path. -/
def outsideDir (dir : List String) (filename : String) : Bool :=
  ! List.isPrefixOf dir (resolveRequest dir filename)

/-- The three outcomes of the get_file endpoint (server.py 72-100):
a 403 denial; a direct serve, the info.json branch that opens the
resolved absolute path itself with open(file_path) and returns its JSON
content (the optional query-parameter filtering still reads that same
file); or delegation of the raw filename under DOWNLOAD_DIR to
send_from_directory, an external collaborator that applies its own
safety check downstream. -/
inductive FileResponse where
  | denied
  | directServe (path : List String)
  | safeServe (filename : String)
deriving DecidableEq, Repr

/-- The endswith test of server.py 78 on the raw requested filename. -/
def endsWithInfoJson (filename : String) : Bool :=
  List.isSuffixOf "info.json".data filename.data

/-- The full branching of get_file (server.py 72-100): deny on the raw
startswith test, else open and serve the resolved path directly when the
raw name ends in info.json, else hand the raw name to
send_from_directory. -/
def get_file_response (dir : List String) (filename : String) : FileResponse :=
  if get_file_denied dir filename then .denied
  else if endsWithInfoJson filename then .directServe (resolveRequest dir filename)
  else .safeServe filename

/-- Unfolding of find? by key over a cons whose head key matches. -/
theorem find?_key_cons_pos (p : String × Task) (l : Store) (id : String)
    (hb : (p.1 == id) = true) :
    (p :: l).find? (fun q => q.1 == id) = some p :=
  @List.find?_cons_of_pos _ (fun q => q.1 == id) p l hb

/-- Unfolding of find? by key over a cons whose head key differs. -/
theorem find?_key_cons_neg (p : String × Task) (l : Store) (id : String)
    (hb : ¬ (p.1 == id) = true) :
    (p :: l).find? (fun q => q.1 == id) = l.find? (fun q => q.1 == id) :=
  @List.find?_cons_of_neg _ (fun q => q.1 == id) p l hb

/-- The element find? by key returns has the searched key. -/
theorem find?_key_some (l : Store) (id : String) (q : String × Task)
    (h : l.find? (fun p => p.1 == id) = some q) : q.1 = id := by
  have hb := List.find?_some h
  exact eq_of_beq hb

/-- Unfolding of the value filter over a cons that is kept. -/
theorem filter_val_cons_pos (f : Task → Bool) (p : String × Task) (l : Store)
    (hf : f p.2 = true) :
    (p :: l).filter (fun q => f q.2) = p :: l.filter (fun q => f q.2) :=
  @List.filter_cons_of_pos _ (fun q => f q.2) p l hf

/-- Unfolding of the value filter over a cons that is dropped. -/
theorem filter_val_cons_neg (f : Task → Bool) (p : String × Task) (l : Store)
    (hf : ¬ f p.2 = true) :
    (p :: l).filter (fun q => f q.2) = l.filter (fun q => f q.2) :=
  @List.filter_cons_of_neg _ (fun q => f q.2) p l hf

/-- Lookup through a map whose function preserves keys. -/
theorem find?_map_of_keypres (f : String × Task → String × Task)
    (hf : ∀ p, (f p).1 = p.1) (l : Store) (id : String) :
    (l.map f).find? (fun p => p.1 == id) = (l.find? (fun p => p.1 == id)).map f := by
  induction l with
  | nil => rfl
  | cons p l ih =>
    by_cases hb : (p.1 == id) = true
    · have hb2 : ((f p).1 == id) = true := by rw [hf p]; exact hb
      rw [List.map_cons, find?_key_cons_pos (f p) _ id hb2, find?_key_cons_pos p l id hb]
      rfl
    · have hb2 : ¬ ((f p).1 == id) = true := by rw [hf p]; exact hb
      rw [List.map_cons, find?_key_cons_neg (f p) _ id hb2, find?_key_cons_neg p l id hb,
        ih]

/-- getTask through a key-preserving map. -/
theorem getTask_map_of_keypres (f : String × Task → String × Task)
    (hf : ∀ p, (f p).1 = p.1) (l : Store) (id : String) :
    getTask (l.map f) id = (getTask l id).map (fun t => (f (id, t)).2) := by
  unfold getTask
  rw [find?_map_of_keypres f hf]
  cases h : l.find? (fun p => p.1 == id) with
  | none => rfl
  | some q =>
    obtain ⟨a, b⟩ := q
    have ha : a = id := find?_key_some l id (a, b) h
    subst ha
    rfl

/-- updTask preserves every key. -/
theorem updTask_keypres (id : String) (t : Task) :
    ∀ p : String × Task, ((if p.1 == id then (p.1, t) else p) : String × Task).1 = p.1 := by
  intro p
  by_cases h : (p.1 == id) = true <;> simp [h]

/-- Updating a present key makes the lookup return the new value. -/
theorem getTask_updTask_self (id : String) (t t0 : Task) (store : Store)
    (h : getTask store id = some t0) :
    getTask (updTask id t store) id = some t := by
  unfold updTask
  rw [getTask_map_of_keypres _ (updTask_keypres id t), h]
  simp

/-- Updating one key leaves every other lookup unchanged. -/
theorem getTask_updTask_ne (id id2 : String) (t : Task) (store : Store)
    (hne : id2 ≠ id) :
    getTask (updTask id t store) id2 = getTask store id2 := by
  unfold updTask
  rw [getTask_map_of_keypres _ (updTask_keypres id t)]
  cases h : getTask store id2 with
  | none => rfl
  | some u =>
    have hb : ((id2 == id) : Bool) = false := beq_eq_false_iff_ne.mpr hne
    simp [hb]

/-- A successful lookup exhibits a member of the list. -/
theorem mem_of_getTask (store : Store) (id : String) (t : Task)
    (h : getTask store id = some t) : (id, t) ∈ store := by
  unfold getTask at h
  rw [Option.map_eq_some'] at h
  obtain ⟨q, hq, hqt⟩ := h
  have hmem := List.mem_of_find?_eq_some hq
  obtain ⟨a, b⟩ := q
  have ha : a = id := find?_key_some store id (a, b) hq
  have hb : b = t := hqt
  subst ha
  subst hb
  exact hmem

/-- With distinct keys, membership determines the lookup. -/
theorem getTask_of_mem_nodup (store : Store) (id : String) (t : Task)
    (hnd : NoDupKeys store) (hm : (id, t) ∈ store) :
    getTask store id = some t := by
  induction store with
  | nil => cases hm
  | cons p l ih =>
    unfold NoDupKeys at hnd
    rw [List.map_cons, List.nodup_cons] at hnd
    rcases List.mem_cons.mp hm with h | h
    · subst h
      unfold getTask
      rw [find?_key_cons_pos (id, t) l id (by simp)]
      rfl
    · have hidin : id ∈ l.map (fun p => p.1) := List.mem_map.mpr ⟨(id, t), h, rfl⟩
      have hne : ¬ (p.1 == id) = true := by
        intro hbeq
        apply hnd.1
        rw [eq_of_beq hbeq]
        exact hidin
      unfold getTask
      rw [find?_key_cons_neg p l id hne]
      exact ih hnd.2 h

/-- A found entry that the filter keeps is still the first match. -/
theorem find?_filter_keep (f : Task → Bool) (l : Store) (id : String) (q : String × Task)
    (h : l.find? (fun p => p.1 == id) = some q) (hf : f q.2 = true) :
    (l.filter (fun p => f p.2)).find? (fun p => p.1 == id) = some q := by
  induction l with
  | nil => simp at h
  | cons p l ih =>
    by_cases hb : (p.1 == id) = true
    · rw [find?_key_cons_pos p l id hb] at h
      injection h with h
      subst h
      rw [filter_val_cons_pos f p l hf, find?_key_cons_pos p _ id hb]
    · rw [find?_key_cons_neg p l id hb] at h
      by_cases hfp : (f p.2) = true
      · rw [filter_val_cons_pos f p l hfp, find?_key_cons_neg p _ id hb]
        exact ih h
      · rw [filter_val_cons_neg f p l hfp]
        exact ih h

/-- A looked-up task that the filter keeps is still looked up. -/
theorem getTask_filter_keep (f : Task → Bool) (store : Store) (id : String) (t : Task)
    (h : getTask store id = some t) (hf : f t = true) :
    getTask (store.filter (fun p => f p.2)) id = some t := by
  unfold getTask at h ⊢
  rw [Option.map_eq_some'] at h
  obtain ⟨q, hq, hqt⟩ := h
  have hq2 : q.2 = t := hqt
  rw [find?_filter_keep f store id q hq (by rw [hq2]; exact hf)]
  simp [hq2]

/-- When every entry at the key is dropped, the filtered lookup is empty. -/
theorem getTask_filter_none (f : Task → Bool) (store : Store) (id : String)
    (hall : ∀ p ∈ store, p.1 = id → f p.2 = false) :
    getTask (store.filter (fun p => f p.2)) id = none := by
  unfold getTask
  have hnone : (store.filter (fun p => f p.2)).find? (fun p => p.1 == id) = none := by
    rw [List.find?_eq_none]
    intro p hp hbeq
    rw [List.mem_filter] at hp
    have h1 : p.1 = id := eq_of_beq hbeq
    have h2 := hall p hp.1 h1
    rw [h2] at hp
    exact Bool.false_ne_true hp.2
  rw [hnone]
  rfl

/-- With distinct keys, dropping the looked-up task empties the lookup. -/
theorem getTask_filter_drop (f : Task → Bool) (store : Store) (id : String) (t : Task)
    (hnd : NoDupKeys store) (h : getTask store id = some t) (hf : f t = false) :
    getTask (store.filter (fun p => f p.2)) id = none := by
  apply getTask_filter_none
  intro p hp h1
  obtain ⟨a, b⟩ := p
  subst h1
  have hb := getTask_of_mem_nodup store a b hnd hp
  rw [h] at hb
  injection hb with hb
  rw [hb] at hf
  exact hf

/-- Key distinctness survives a key-preserving map. -/
theorem ndk_map_of_keypres (f : String × Task → String × Task)
    (hf : ∀ p, (f p).1 = p.1) (store : Store) (hnd : NoDupKeys store) :
    NoDupKeys (store.map f) := by
  unfold NoDupKeys at hnd ⊢
  rw [List.map_map]
  rw [show ((fun p : String × Task => p.1) ∘ f) = (fun p : String × Task => p.1) from
    funext hf]
  exact hnd

/-- Key distinctness survives a filter. -/
theorem ndk_filter (q : String × Task → Bool) (store : Store) (hnd : NoDupKeys store) :
    NoDupKeys (store.filter q) := by
  unfold NoDupKeys at hnd ⊢
  exact List.Nodup.sublist (List.Sublist.map _ (List.filter_sublist _)) hnd

/-- markProcessing preserves every key. -/
theorem markProcessing_keypres (now : Nat) :
    ∀ p : String × Task, (markProcessing now p).1 = p.1 := by
  intro p
  unfold markProcessing
  by_cases h : p.2.status = "waiting" <;> simp [h]

/-- Pointwise description of the waiting sweep. -/
theorem getTask_process_waiting (now : Nat) (store : Store) (id : String) :
    getTask (process_waiting now store).1 id =
      (getTask store id).map (fun t =>
        if t.status = "waiting" then
          { t with status := "processing", started_time := some now }
        else t) := by
  unfold process_waiting
  rw [getTask_map_of_keypres _ (markProcessing_keypres now)]
  cases h : getTask store id with
  | none => rfl
  | some t =>
    unfold markProcessing
    by_cases hw : t.status = "waiting" <;> simp [hw]

/-- Every submission produced by dispatch carries the dispatching id. -/
theorem dispatch_id (id : String) (t : Task) (s : Submission)
    (h : s ∈ dispatch id t) : s.id = id := by
  unfold dispatch at h
  split_ifs at h
  all_goals first
    | (rw [List.mem_singleton] at h; rw [h])
    | cases h

/-- A task_type outside the five dispatched types submits nothing. -/
theorem dispatch_nil_of_unknown (id : String) (t : Task)
    (h : t.task_type ∉ dispatched_types) : dispatch id t = [] := by
  simp only [dispatched_types, List.mem_cons, List.not_mem_nil, or_false, not_or] at h
  obtain ⟨h1, h2, h3, h4, h5⟩ := h
  unfold dispatch
  rw [if_neg h1, if_neg h2, if_neg h3, if_neg h4, if_neg h5]

/-- Every submission of the waiting sweep comes from a waiting entry. -/
theorem submission_source (now : Nat) (store : Store) (s : Submission)
    (h : s ∈ (process_waiting now store).2) :
    ∃ p ∈ store, p.1 = s.id ∧ p.2.status = "waiting" ∧ s ∈ dispatch p.1 p.2 := by
  unfold process_waiting at h
  simp only [List.mem_flatMap] at h
  obtain ⟨p, hp, hs⟩ := h
  by_cases hw : p.2.status = "waiting"
  · rw [if_pos hw] at hs
    exact ⟨p, hp, (dispatch_id p.1 p.2 s hs).symm, hw, hs⟩
  · rw [if_neg hw] at hs
    cases hs

/-- Every store entry after the waiting sweep is a marked source entry. -/
theorem entry_source_process_waiting (now : Nat) (store : Store) (q : String × Task)
    (hq : q ∈ (process_waiting now store).1) :
    ∃ p ∈ store, q = markProcessing now p := by
  unfold process_waiting at hq
  rw [List.mem_map] at hq
  obtain ⟨p, hp, he⟩ := hq
  exact ⟨p, hp, he.symm⟩

/-- updTask with an allowed status preserves the status vocabulary. -/
theorem statusInv_updTask (id : String) (t : Task) (store : Store)
    (h : statusInv store) (ht : t.status ∈ allowedStatuses) :
    statusInv (updTask id t store) := by
  intro q hq
  unfold updTask at hq
  rw [List.mem_map] at hq
  obtain ⟨p, hp, he⟩ := hq
  by_cases hb : (p.1 == id) = true
  · rw [← he, if_pos hb]
    exact ht
  · rw [← he, if_neg hb]
    exact h p hp

/-- putTask with an allowed status preserves the status vocabulary. -/
theorem statusInv_putTask (id : String) (t : Task) (store : Store)
    (h : statusInv store) (ht : t.status ∈ allowedStatuses) :
    statusInv (putTask id t store) := by
  unfold putTask
  by_cases hs : (getTask store id).isSome = true
  · rw [if_pos hs]
    exact statusInv_updTask id t store h ht
  · rw [if_neg hs]
    intro q hq
    rcases List.mem_append.mp hq with hq | hq
    · exact h q hq
    · rw [List.mem_singleton] at hq
      rw [hq]
      exact ht

theorem waiting_mem_allowed : ("waiting" : String) ∈ allowedStatuses := by decide

theorem processing_mem_allowed : ("processing" : String) ∈ allowedStatuses := by decide

theorem completed_mem_allowed : ("completed" : String) ∈ allowedStatuses := by decide

theorem failed_mem_allowed : ("failed" : String) ∈ allowedStatuses := by decide

/-- handle_task_error writes only the failed status. -/
theorem statusInv_handle_task_error (id err : String) (now : Nat) (store : Store)
    (h : statusInv store) : statusInv (handle_task_error id err now store) := by
  cases hg : getTask store id with
  | none =>
    have he : handle_task_error id err now store = store := by
      simp [handle_task_error, hg]
    rw [he]
    exact h
  | some t =>
    have he : handle_task_error id err now store = updTask id
        { t with status := "failed", error := some err,
                 completed_time := some now } store := by
      simp [handle_task_error, hg]
    rw [he]
    exact statusInv_updTask id _ store h failed_mem_allowed

/-- The get terminal write writes only the completed or failed status. -/
theorem statusInv_get_terminal_write (id path : String) (now : Nat) (store : Store)
    (h : statusInv store) : statusInv (get_terminal_write id path now store) := by
  cases hg : getTask store id with
  | none =>
    have he : get_terminal_write id path now store =
        handle_task_error id "KeyError" now store := by
      simp [get_terminal_write, hg]
    rw [he]
    exact statusInv_handle_task_error _ _ _ _ h
  | some t =>
    have he : get_terminal_write id path now store = updTask id
        { t with status := "completed", completed_time := some now,
                 file := some path } store := by
      simp [get_terminal_write, hg]
    rw [he]
    exact statusInv_updTask id _ store h completed_mem_allowed

/-- The webhook annotation never changes the status field. -/
theorem statusInv_webhook (d : Bool) (id : String) (store : Store)
    (h : statusInv store) : statusInv (send_webhook_notification d id store) := by
  cases hg : getTask store id with
  | none =>
    have he : send_webhook_notification d id store = store := by
      simp [send_webhook_notification, hg]
    rw [he]
    exact h
  | some t =>
    cases hu : t.webhook_url with
    | none =>
      have he : send_webhook_notification d id store = store := by
        simp [send_webhook_notification, hg, hu]
      rw [he]
      exact h
    | some u =>
      cases d with
      | true =>
        have he : send_webhook_notification true id store = store := by
          simp [send_webhook_notification, hg, hu]
        rw [he]
        exact h
      | false =>
        have he : send_webhook_notification false id store =
            updTask id
              { t with webhook_status := some "failed",
                       webhook_error := some "Failed to send webhook notification" }
              store := by
          simp [send_webhook_notification, hg, hu]
        rw [he]
        apply statusInv_updTask id _ store h
        exact h (id, t) (mem_of_getTask store id t hg)

/-- The scheduler iteration writes only the processing status. -/
theorem statusInv_scheduler (now : Nat) (store : Store) (h : statusInv store) :
    statusInv (scheduler_pass now store).1 := by
  unfold scheduler_pass cleanup_processing_tasks
  intro q hq
  rw [List.mem_filter] at hq
  obtain ⟨p2, hp2, he⟩ := entry_source_process_waiting now store q hq.1
  rw [he]
  unfold markProcessing
  by_cases hw : p2.2.status = "waiting"
  · rw [if_pos hw]
    exact processing_mem_allowed
  · rw [if_neg hw]
    exact h p2 hp2

/-- Claim C4 counterexample: after a handler exception the task status is
the string failed, which is not among waiting, processing, completed,
error; the claimed error status value is never written by the code. -/
theorem status_error_name_cx :
    (getTask (handle_task_error "a1" "boom" 7 c4Store) "a1").map Task.status = some "failed"
    ∧ "failed" ∉ ["waiting", "processing", "completed", "error"] := by
  constructor
  · decide
  · decide

/-- Claim C4 (amended): every status the embedded operations write is one
of waiting, processing, completed, failed (the terminal failure status is
failed, not error): each operation preserves this vocabulary, and a
handler exception drives a present task to the terminal failed state
with the error detail and a completion time recorded, never leaving it
in processing. -/
theorem status_vocabulary (op : SysOp) (store : Store) (id err : String)
    (now : Nat) (t : Task)
    (hinv : statusInv store) (hget : getTask store id = some t) :
    statusInv (applyOp op store)
    ∧ getTask (handle_task_error id err now store) id =
        some { t with status := "failed", error := some err,
                      completed_time := some now } := by
  constructor
  · cases op with
    | createDownload id2 key url fmt qual =>
        exact statusInv_putTask _ _ _ hinv waiting_mem_allowed
    | createInfo id2 key url =>
        exact statusInv_putTask _ _ _ hinv waiting_mem_allowed
    | scheduler now2 => exact statusInv_scheduler now2 store hinv
    | handlerComplete id2 path now2 d =>
        exact statusInv_webhook d id2 _
          (statusInv_get_terminal_write id2 path now2 store hinv)
    | handlerError id2 err2 now2 =>
        exact statusInv_handle_task_error id2 err2 now2 store hinv
    | webhook d id2 => exact statusInv_webhook d id2 store hinv
  · have he : handle_task_error id err now store = updTask id
        { t with status := "failed", error := some err,
                 completed_time := some now } store := by
      simp [handle_task_error, hget]
    rw [he]
    exact getTask_updTask_self id _ t store hget

/-- Claim C4 witness: the amended statement evaluated on a concrete
processing task hit by a handler exception. -/
theorem status_vocabulary_witness :
    getTask (handle_task_error "a1" "boom" 7 c4Store) "a1" =
      some { c4Task with status := "failed", error := some "boom",
                         completed_time := some 7 } :=
  (status_vocabulary (.handlerError "a1" "boom" 7) c4Store "a1" "boom" 7 c4Task
    (by decide) (by decide)).2

/-- Claim C5 (amended, no-op half): when the handler reloads the store
after the reap deleted its task, the terminal write raises KeyError,
handle_task_error re-checks membership, and the store is untouched, so
the task is not observed completed on this path. -/
theorem reaped_task_write_noop (id path err : String) (now now2 : Nat) (store : Store)
    (habs : getTask store id = none) :
    get_terminal_write id path now store = store
    ∧ handle_task_error id err now2 store = store
    ∧ getTask (get_terminal_write id path now store) id = none := by
  have h1 : handle_task_error id "KeyError" now store = store := by
    simp [handle_task_error, habs]
  have h2 : get_terminal_write id path now store = store := by
    simp [get_terminal_write, habs, h1]
  have h3 : handle_task_error id err now2 store = store := by
    simp [handle_task_error, habs]
  refine ⟨h2, h3, ?_⟩
  rw [h2]
  exact habs

/-- Claim C5 witness: the no-op half evaluated at an id absent from a
concrete store. -/
theorem reaped_task_write_noop_witness :
    get_terminal_write "gone" "/files/gone/video.mp4" 42 c5Store = c5Store
    ∧ handle_task_error "gone" "late failure" 43 c5Store = c5Store
    ∧ getTask (get_terminal_write "gone" "/files/gone/video.mp4" 42 c5Store) "gone" = none :=
  reaped_task_write_noop "gone" "/files/gone/video.mp4" "late failure" 42 43 c5Store
    (by decide)

/-- Claim C6 counterexample: a delivery that succeeds within the retry
budget records nothing on the task: webhook_status stays absent and is in
particular never the claimed delivered value. -/
theorem webhook_delivered_cx :
    getTask (send_webhook_notification true "w1" c6Store) "w1" = some c6Task
    ∧ c6Task.webhook_status = none
    ∧ (getTask (send_webhook_notification true "w1" c6Store) "w1").map Task.webhook_status
        ≠ some (some "delivered") := by
  refine ⟨rfl, rfl, ?_⟩
  decide

/-- Claim C6 (amended): successful delivery leaves the store untouched
(no webhook_status is recorded); exhausted delivery records
webhook_status failed with a fixed generic message, not the final error;
in both cases the status field of the task is unchanged. -/
theorem webhook_status_recording (id u : String) (store : Store) (t : Task)
    (hget : getTask store id = some t) (hu : t.webhook_url = some u) :
    send_webhook_notification true id store = store
    ∧ getTask (send_webhook_notification false id store) id =
        some { t with webhook_status := some "failed",
                      webhook_error := some "Failed to send webhook notification" }
    ∧ ({ t with webhook_status := some "failed",
                webhook_error := some "Failed to send webhook notification" } : Task).status
        = t.status := by
  refine ⟨?_, ?_, rfl⟩
  · simp [send_webhook_notification, hget, hu]
  · have he : send_webhook_notification false id store =
        updTask id
          { t with webhook_status := some "failed",
                   webhook_error := some "Failed to send webhook notification" }
          store := by
      simp [send_webhook_notification, hget, hu]
    rw [he]
    exact getTask_updTask_self id _ t store hget

/-- Claim C6 witness: the amended statement evaluated on a concrete
completed task carrying a webhook url. -/
theorem webhook_status_recording_witness :
    send_webhook_notification true "w1" c6Store = c6Store
    ∧ getTask (send_webhook_notification false "w1" c6Store) "w1" =
        some { c6Task with webhook_status := some "failed",
                           webhook_error := some "Failed to send webhook notification" } :=
  ⟨(webhook_status_recording "w1" "http://cb.example/hook" c6Store c6Task rfl rfl).1,
   (webhook_status_recording "w1" "http://cb.example/hook" c6Store c6Task rfl rfl).2.1⟩

/-- A waiting task is transitioned by the scheduler iteration to
processing with started_time, and survives the reap filter because its
started_time is the current instant. -/
theorem scheduler_pass_waiting_step (now : Nat) (store : Store) (id : String) (t : Task)
    (hget : getTask store id = some t) (hw : t.status = "waiting") :
    getTask (scheduler_pass now store).1 id =
      some { t with status := "processing", started_time := some now } := by
  have h1 : getTask (process_waiting now store).1 id =
      some { t with status := "processing", started_time := some now } := by
    rw [getTask_process_waiting, hget]
    simp [hw]
  have hstale :
      staleAt now { t with status := "processing", started_time := some now } = false := by
    unfold staleAt
    exact decide_eq_false (show ¬ (now + TASK_CLEANUP_TIME < now) by omega)
  simp only [scheduler_pass, cleanup_processing_tasks]
  apply getTask_filter_keep (fun u => !(reapTask now u)) _ _ _ h1
  simp [reapTask, hstale]

/-- A non-waiting, non-stale task passes through the scheduler iteration
unchanged. -/
theorem scheduler_pass_keep_step (now : Nat) (store : Store) (id : String) (t : Task)
    (hget : getTask store id = some t) (hnw : t.status ≠ "waiting")
    (hns : staleAt now t = false) :
    getTask (scheduler_pass now store).1 id = some t := by
  have h1 : getTask (process_waiting now store).1 id = some t := by
    rw [getTask_process_waiting, hget]
    simp [hnw]
  simp only [scheduler_pass, cleanup_processing_tasks]
  apply getTask_filter_keep (fun u => !(reapTask now u)) _ _ _ h1
  simp [reapTask, hns]

/-- A stale processing task is deleted by the scheduler iteration. -/
theorem scheduler_pass_stale_delete (now : Nat) (store : Store) (id : String) (t : Task)
    (hnd : NoDupKeys store) (hget : getTask store id = some t)
    (hp : t.status = "processing") (hs : staleAt now t = true) :
    getTask (scheduler_pass now store).1 id = none := by
  have hnw : t.status ≠ "waiting" := by
    rw [hp]
    decide
  have h1 : getTask (process_waiting now store).1 id = some t := by
    rw [getTask_process_waiting, hget]
    simp [hnw]
  have hnd2 : NoDupKeys (process_waiting now store).1 := by
    simp only [process_waiting]
    exact ndk_map_of_keypres _ (markProcessing_keypres now) store hnd
  simp only [scheduler_pass, cleanup_processing_tasks]
  apply getTask_filter_drop (fun u => !(reapTask now u)) _ _ _ hnd2 h1
  simp [reapTask, hp, hs]

/-- Key distinctness survives the scheduler iteration. -/
theorem ndk_scheduler_pass (now : Nat) (store : Store) (hnd : NoDupKeys store) :
    NoDupKeys (scheduler_pass now store).1 := by
  simp only [scheduler_pass, cleanup_processing_tasks, process_waiting]
  exact ndk_filter _ _ (ndk_map_of_keypres _ (markProcessing_keypres now) store hnd)

/-- When the unique entry at an id is not waiting, or its dispatch list
is empty, no submission of the iteration carries that id. -/
theorem no_submission_for (now : Nat) (store : Store) (id : String) (t : Task)
    (hnd : NoDupKeys store) (hget : getTask store id = some t)
    (hnot : t.status ≠ "waiting" ∨ dispatch id t = []) :
    ∀ s ∈ (scheduler_pass now store).2, s.id ≠ id := by
  intro s hs heq
  have hs2 : s ∈ (process_waiting now store).2 := by
    simpa [scheduler_pass] using hs
  obtain ⟨p, hp, hpid, hpw, hpd⟩ := submission_source now store s hs2
  obtain ⟨a, b⟩ := p
  rw [heq] at hpid
  have ha : a = id := hpid
  subst ha
  have hgt : getTask store a = some b :=
    getTask_of_mem_nodup store a b hnd hp
  rw [hget] at hgt
  injection hgt with hgt
  rcases hnot with hnot | hnot
  · rw [← hgt] at hpw
    exact hnot hpw
  · have hpd2 : s ∈ dispatch a t := by
      rw [hgt]
      exact hpd
    rw [hnot] at hpd2
    cases hpd2

/-- Claim C3 counterexample: a stale processing task is not transitioned
to any error record by the reap pass: its record is removed from the
store entirely, while its id is listed for artifact cleanup. -/
theorem reaper_transition_cx :
    getTask (cleanup_processing_tasks 100 c3Store).1 "t1" = none
    ∧ (cleanup_processing_tasks 100 c3Store).1 = ([] : Store)
    ∧ (cleanup_processing_tasks 100 c3Store).2 = ["t1"] := by
  refine ⟨?_, ?_, ?_⟩ <;> decide

/-- Claim C3 (amended): for every processing task whose started_time is
older than the configured timeout, the reap pass deletes the record from
the store (no transition to any error state exists, and no separate
retention expiry exists) and triggers artifact cleanup for its id. -/
theorem reaper_deletes_stale (now : Nat) (store : Store) (id : String) (t : Task)
    (hnd : NoDupKeys store) (hget : getTask store id = some t)
    (hp : t.status = "processing") (hs : staleAt now t = true) :
    getTask (cleanup_processing_tasks now store).1 id = none
    ∧ id ∈ (cleanup_processing_tasks now store).2 := by
  have hreap : reapTask now t = true := by
    unfold reapTask
    rw [hs]
    simp [hp]
  constructor
  · simp only [cleanup_processing_tasks]
    exact getTask_filter_drop (fun u => !(reapTask now u)) store id t hnd hget
      (by simp [hreap])
  · simp only [cleanup_processing_tasks]
    apply List.mem_map.mpr
    refine ⟨(id, t), ?_, rfl⟩
    rw [List.mem_filter]
    exact ⟨mem_of_getTask store id t hget, hreap⟩

/-- Claim C3 witness: the amended statement evaluated on a concrete
stale task. -/
theorem reaper_deletes_stale_witness :
    getTask (cleanup_processing_tasks 100 c3Store).1 "t1" = none
    ∧ "t1" ∈ (cleanup_processing_tasks 100 c3Store).2 :=
  reaper_deletes_stale 100 c3Store "t1" c3Task (by decide) (by decide) rfl (by decide)

/-- Claim C2 counterexample: with 4000 of 5000 quota units consumed and
an estimate of 1500, the spec admission denies and demands an error
transition, but the code pass transitions the same waiting task to
processing: the code performs no admission call at all. -/
theorem scheduler_skips_admission_cx :
    getTask (process_waiting 7 c2Store).1 "t1" =
      some { c2Task with status := "processing", started_time := some 7 }
    ∧ getTask (process_waiting_spec 7 (fun _ => 1500)
        (fun _ e => try_reserve_spec 4000 5000 e) c2Store).1 "t1" =
      some { c2Task with status := "error", error := some "Memory quota exceeded" }
    ∧ (process_waiting 7 c2Store).1 ≠
      (process_waiting_spec 7 (fun _ => 1500)
        (fun _ e => try_reserve_spec 4000 5000 e) c2Store).1 := by
  refine ⟨?_, ?_, ?_⟩ <;> decide

/-- Claim C2 (amended): the scheduler pass performs no admission check:
every waiting task is unconditionally transitioned to processing with a
started_time, whatever any estimate or quota would say, and the pass
never writes an error status (any error entry after the pass was already
present before it). -/
theorem scheduler_no_admission (now : Nat) (store : Store) (id : String) (t : Task)
    (hget : getTask store id = some t) (hw : t.status = "waiting") :
    getTask (scheduler_pass now store).1 id =
      some { t with status := "processing", started_time := some now }
    ∧ (∀ q ∈ (scheduler_pass now store).1, q.2.status = "error" →
        ∃ p ∈ store, p.2.status = "error") := by
  constructor
  · exact scheduler_pass_waiting_step now store id t hget hw
  · intro q hq hqe
    have hq2 : q ∈ ((process_waiting now store).1.filter
        (fun p => !(reapTask now p.2))) := by
      simpa [scheduler_pass, cleanup_processing_tasks] using hq
    rw [List.mem_filter] at hq2
    obtain ⟨p2, hp2, he⟩ := entry_source_process_waiting now store q hq2.1
    by_cases hw2 : p2.2.status = "waiting"
    · exfalso
      rw [he] at hqe
      unfold markProcessing at hqe
      rw [if_pos hw2] at hqe
      exact (show ("processing" : String) ≠ "error" by decide) hqe
    · refine ⟨p2, hp2, ?_⟩
      rw [he] at hqe
      unfold markProcessing at hqe
      rw [if_neg hw2] at hqe
      exact hqe

/-- Claim C2 witness: the amended statement evaluated on a concrete
waiting task. -/
theorem scheduler_no_admission_witness :
    getTask (scheduler_pass 7 c2Store).1 "t1" =
      some { c2Task with status := "processing", started_time := some 7 } :=
  (scheduler_no_admission 7 c2Store "t1" c2Task (by decide) rfl).1

/-- Claim C9: a waiting task whose task_type is outside the five
dispatched types (such as the download type the download endpoint
creates) is transitioned to processing with a started_time but submitted
to no handler; later passes neither submit it nor change it while it is
fresh, and the stale-task reaper eventually removes it, so it can never
reach completed. -/
theorem unknown_type_never_dispatched
    (now now2 now3 : Nat) (store : Store) (id : String) (t : Task)
    (hnd : NoDupKeys store) (hget : getTask store id = some t)
    (hw : t.status = "waiting") (htype : t.task_type ∉ dispatched_types)
    (h2 : now2 ≤ now + TASK_CLEANUP_TIME) (h3 : now + TASK_CLEANUP_TIME < now3) :
    getTask (scheduler_pass now store).1 id =
      some { t with status := "processing", started_time := some now }
    ∧ (∀ s ∈ (scheduler_pass now store).2, s.id ≠ id)
    ∧ getTask (scheduler_pass now2 (scheduler_pass now store).1).1 id =
      some { t with status := "processing", started_time := some now }
    ∧ (∀ s ∈ (scheduler_pass now2 (scheduler_pass now store).1).2, s.id ≠ id)
    ∧ getTask (scheduler_pass now3 (scheduler_pass now store).1).1 id = none := by
  have hA : getTask (scheduler_pass now store).1 id =
      some { t with status := "processing", started_time := some now } :=
    scheduler_pass_waiting_step now store id t hget hw
  have hndA : NoDupKeys (scheduler_pass now store).1 :=
    ndk_scheduler_pass now store hnd
  have hnw1 : ({ t with status := "processing", started_time := some now } : Task).status
      ≠ "waiting" := fun h => (show ("processing" : String) ≠ "waiting" by decide) h
  refine ⟨hA, ?_, ?_, ?_, ?_⟩
  · exact no_submission_for now store id t hnd hget
      (Or.inr (dispatch_nil_of_unknown id t htype))
  · apply scheduler_pass_keep_step now2 _ id _ hA hnw1
    unfold staleAt
    exact decide_eq_false (show ¬ (now + TASK_CLEANUP_TIME < now2) by omega)
  · exact no_submission_for now2 _ id _ hndA hA (Or.inl hnw1)
  · apply scheduler_pass_stale_delete now3 _ id _ hndA hA rfl
    unfold staleAt
    exact decide_eq_true h3

/-- Claim C9 witness: a download task created by the download endpoint,
pushed through a pass at minute 5, then a reap pass at minute 100. -/
theorem unknown_type_never_dispatched_witness :
    getTask (scheduler_pass 5 c9Store).1 "d1" =
      some { c9Task with status := "processing", started_time := some 5 }
    ∧ getTask (scheduler_pass 100 (scheduler_pass 5 c9Store).1).1 "d1" = none := by
  refine ⟨?_, ?_⟩
  · exact (unknown_type_never_dispatched 5 10 100 c9Store "d1" c9Task
      (by decide) (by decide) rfl (by decide) (by decide) (by decide)).1
  · exact (unknown_type_never_dispatched 5 10 100 c9Store "d1" c9Task
      (by decide) (by decide) rfl (by decide) (by decide) (by decide)).2.2.2.2

/-- Claim C7 counterexample: a failed probe (none) and a probe reporting
size zero both yield the estimate 0, not a conservative non-zero
fallback. -/
theorem probe_zero_fallback_cx :
    check_and_get_size none = 0 ∧ check_and_get_size (some (.single 0 0)) = 0 :=
  ⟨rfl, rfl⟩

/-- Claim C7 (amended): the size estimate is zero exactly when the probe
failed or reported a total size of zero; no non-zero fallback exists
anywhere on the admission path. -/
theorem probe_estimate_zero_iff (r : Option ProbeInfo) :
    check_and_get_size r = 0 ↔ probeTotal r = 0 := by
  cases r with
  | none => simp [check_and_get_size, probeTotal]
  | some info =>
    simp only [check_and_get_size]
    constructor
    · intro h
      rw [Nat.div_eq_zero_iff (by norm_num : (0:Nat) < 10)] at h
      omega
    · intro h
      rw [h]

/-- Claim C8 counterexample: a failed GCS read returns the same empty
dict as a missing store, a corrupt read likewise, and a failed GCS write
returns normally while persisting nothing. -/
theorem store_errors_silenced_cx :
    load_tasks_gcs (.ioErr "connection reset") = load_tasks_gcs .missing
    ∧ load_tasks_gcs (.corrupt "not json") = ([] : Store)
    ∧ (save_tasks_gcs false).2 = Except.ok ()
    ∧ (save_tasks_gcs false).1 = false :=
  ⟨rfl, rfl, rfl, rfl⟩

/-- Claim C8 (amended): in GCS mode every failed or corrupt store read is
silently treated as the empty task dict, indistinguishable from no tasks,
and a failed store write is swallowed with a normal return; only the
local branch lets a corrupt read raise to the caller. -/
theorem store_errors_swallowed (msg raw : String) (ts : Store) :
    load_tasks_gcs (.ioErr msg) = ([] : Store)
    ∧ load_tasks_gcs (.corrupt raw) = ([] : Store)
    ∧ load_tasks_gcs (.ok ts) = ts
    ∧ (∀ b : Bool, (save_tasks_gcs b).2 = Except.ok ())
    ∧ load_tasks_local (some (.error msg)) = Except.error msg
    ∧ load_tasks_local none = Except.ok ([] : Store) :=
  ⟨rfl, rfl, rfl, fun _ => rfl, rfl, rfl⟩

/-- Claim C1 counterexample: two read-modify-write mutations of the two
distinct ids t1 and t2, interleaved load load save save, leave t1
untouched: the t1 mutation is silently dropped by the whole-document
save of the t2 mutation, while the serialized schedule applies both. -/
theorem mutate_lost_update_cx :
    getTask (runSchedule [c1Mut1, c1Mut2] c1Store
        [.load 0, .load 1, .save 0, .save 1]).global "t1" = some c1Task1
    ∧ getTask (runSequential [c1Mut1, c1Mut2] c1Store) "t1" =
        some { c1Task1 with status := "completed", file := some "/files/t1/video.mp4" }
    ∧ (runSchedule [c1Mut1, c1Mut2] c1Store
        [.load 0, .load 1, .save 0, .save 1]).global ≠
      runSequential [c1Mut1, c1Mut2] c1Store
    ∧ (runSchedule [c1Mut1, c1Mut2] c1Store
        [.load 0, .save 0, .load 1, .save 1]).global =
      runSequential [c1Mut1, c1Mut2] c1Store := by
  refine ⟨?_, ?_, ?_, ?_⟩ <;> decide

/-- Claim C1 (amended): store mutation is last-writer-wins over the whole
document: when read-modify-write mutations of distinct present ids are
fully serialized, each load following the previous save, the final store
is the pointwise merge of the mutations; the atomicity the claim asserts
fails as soon as the load-save pairs of two writers interleave. -/
theorem mutate_sequential_merge (id1 id2 : String) (t1 t2 : Task)
    (f1 f2 : Task → Task) (store : Store)
    (hne : id1 ≠ id2) (h1 : getTask store id1 = some t1)
    (h2 : getTask store id2 = some t2) :
    getTask (runSequential [⟨id1, f1⟩, ⟨id2, f2⟩] store) id1 = some (f1 t1)
    ∧ getTask (runSequential [⟨id1, f1⟩, ⟨id2, f2⟩] store) id2 = some (f2 t2) := by
  have e1 : applyMutation ⟨id1, f1⟩ store = updTask id1 (f1 t1) store := by
    simp [applyMutation, h1]
  have hs1 : getTask (updTask id1 (f1 t1) store) id1 = some (f1 t1) :=
    getTask_updTask_self id1 (f1 t1) t1 store h1
  have hs2 : getTask (updTask id1 (f1 t1) store) id2 = some t2 := by
    rw [getTask_updTask_ne id1 id2 (f1 t1) store (Ne.symm hne)]
    exact h2
  have e2 : applyMutation ⟨id2, f2⟩ (updTask id1 (f1 t1) store) =
      updTask id2 (f2 t2) (updTask id1 (f1 t1) store) := by
    simp [applyMutation, hs2]
  have hrun : runSequential [⟨id1, f1⟩, ⟨id2, f2⟩] store =
      updTask id2 (f2 t2) (updTask id1 (f1 t1) store) := by
    simp [runSequential, e1, e2]
  rw [hrun]
  constructor
  · rw [getTask_updTask_ne id2 id1 (f2 t2) _ hne]
    exact hs1
  · exact getTask_updTask_self id2 (f2 t2) t2 _ hs2

/-- Claim C1 witness: the serialized merge evaluated on two concrete
mutations of distinct ids. -/
theorem mutate_sequential_merge_witness :
    getTask (runSequential [⟨"t1", fun t => { t with status := "completed" }⟩,
        ⟨"t2", fun t => { t with status := "failed" }⟩] c1Store) "t1" =
      some { c1Task1 with status := "completed" }
    ∧ getTask (runSequential [⟨"t1", fun t => { t with status := "completed" }⟩,
        ⟨"t2", fun t => { t with status := "failed" }⟩] c1Store) "t2" =
      some { c1Task2 with status := "failed" } :=
  mutate_sequential_merge "t1" "t2" c1Task1 c1Task2
    (fun t => { t with status := "completed" })
    (fun t => { t with status := "failed" })
    c1Store (by decide) (by decide) (by decide)

/-- Claim C5 counterexample: the handler loads its snapshot before the
reap deletes the stale task; its later terminal save writes the whole
stale snapshot back, so the reaped task reappears as completed: the
terminal write is a blind overwrite, not a checked one. -/
theorem reaped_task_resurrected_cx :
    getTask (runLate "t1" c3Store
        [.hLoad, .reap 100, .hSave "/files/t1/video.mp4" 101]).global "t1" =
      some { c3Task with status := "completed", completed_time := some 101,
                         file := some "/files/t1/video.mp4" }
    ∧ getTask (runLate "t1" c3Store [.hLoad, .reap 100]).global "t1" = none := by
  refine ⟨?_, ?_⟩ <;> decide

/-- Claim C10 counterexample: the request ../downloads_evil/secret-info.json
resolves outside the download directory, into the sibling directory
/app/downloads_evil, yet the endpoint does not return 403, because the
rendered string extends the string /app/downloads; and since the raw
name ends in info.json, the endpoint itself opens the resolved path and
serves its content, so file content outside the directory is served. -/
theorem get_file_prefix_escape_cx :
    outsideDir DOWNLOAD_DIR_COMPS "../downloads_evil/secret-info.json" = true
    ∧ get_file_denied DOWNLOAD_DIR_COMPS "../downloads_evil/secret-info.json" = false
    ∧ get_file_response DOWNLOAD_DIR_COMPS "../downloads_evil/secret-info.json" =
        FileResponse.directServe ["app", "downloads_evil", "secret-info.json"] := by
  refine ⟨?_, ?_, ?_⟩ <;> decide

/-- Accumulator form of the path rendering fold. -/
theorem renderAbs_foldl_acc (l : List String) (acc : List Char) :
    l.foldl (fun a c => a ++ '/' :: c.data) acc =
      acc ++ l.foldl (fun a c => a ++ '/' :: c.data) [] := by
  induction l generalizing acc with
  | nil => simp
  | cons c cs ih =>
    rw [List.foldl_cons, List.foldl_cons]
    rw [ih (acc ++ ('/' :: c.data))]
    rw [ih (List.nil ++ ('/' :: c.data))]
    simp

/-- Rendering distributes over component concatenation. -/
theorem renderAbs_append (l1 l2 : List String) :
    renderAbs (l1 ++ l2) =
      renderAbs l1 ++ l2.foldl (fun a c => a ++ '/' :: c.data) [] := by
  unfold renderAbs
  rw [List.foldl_append]
  exact renderAbs_foldl_acc l2 _

/-- A request resolving inside the directory renders to a string with
the directory string as prefix, so the endpoint serves it. -/
theorem get_file_denied_false_of_inside (dir : List String) (filename : String)
    (hin : List.isPrefixOf dir (resolveRequest dir filename) = true) :
    get_file_denied dir filename = false := by
  unfold get_file_denied
  have hpre : dir <+: resolveRequest dir filename :=
    List.isPrefixOf_iff_prefix.mp hin
  obtain ⟨rest, hrest⟩ := hpre
  have hstr : List.isPrefixOf (renderAbs dir)
      (renderAbs (resolveRequest dir filename)) = true := by
    rw [← hrest, renderAbs_append]
    exact List.isPrefixOf_iff_prefix.mpr ⟨_, rfl⟩
  rw [hstr]
  rfl

/-- Claim C10 (amended): the endpoint denies only on the raw string
startswith test: every request resolving inside the download directory
passes the check and is never answered 403, plain parent traversal such
as ../../etc/passwd is denied, but a request resolving into a sibling
directory whose rendered path extends the directory string, such as
/app/downloads_evil, is not denied, and when its raw name ends in
info.json the endpoint itself opens and serves the resolved file from
outside the directory (other names are delegated to send_from_directory,
which applies its own downstream check). -/
theorem get_file_prefix_check (dir : List String) (filename : String)
    (hin : List.isPrefixOf dir (resolveRequest dir filename) = true) :
    get_file_denied dir filename = false
    ∧ get_file_response dir filename ≠ FileResponse.denied
    ∧ get_file_response DOWNLOAD_DIR_COMPS "../../etc/passwd" = FileResponse.denied := by
  have h1 : get_file_denied dir filename = false :=
    get_file_denied_false_of_inside dir filename hin
  refine ⟨h1, ?_, by decide⟩
  by_cases he : endsWithInfoJson filename = true
  · simp [get_file_response, h1, he]
  · simp [get_file_response, h1, he]

/-- Claim C10 witness: a file inside the directory is not denied and the
parent traversal is denied. -/
theorem get_file_prefix_check_witness :
    get_file_denied DOWNLOAD_DIR_COMPS "t1/video.mp4" = false
    ∧ get_file_response DOWNLOAD_DIR_COMPS "t1/video.mp4" ≠ FileResponse.denied
    ∧ get_file_response DOWNLOAD_DIR_COMPS "../../etc/passwd" = FileResponse.denied :=
  get_file_prefix_check DOWNLOAD_DIR_COMPS "t1/video.mp4" (by decide)

end YtDlpHost
